import Mathlib

/-!
Verification of the Cosmic Birthday Finder repository.

This file gives a shallow embedding, in Lean 4, of the pure data
transformations of the repository (moon-phase / eclipse data fetching,
parsing, merging and birthday matching), together with theorems settling
the specification claims about them.

Conventions used throughout the embedding:
* JS numbers that only ever hold integers are modelled as Nat or Int;
  the Saros-cycle arithmetic of fetch-eclipse-data.js, which genuinely
  produces non-integral values (cycle 18.03), is modelled over ℚ.
* JS arrays are lists, JS objects with a fixed shape are structures, and
  the year-keyed maps are association lists.
* Fallible steps return Option; the outcome of a network request is an
  explicit inductive datum handed to the function that consumes it.
* Loops whose termination is by a numeric measure are written with an
  explicit fuel argument (initialised generously by the wrapper) so that
  every definition stays structurally recursive and kernel-evaluable.
-/

/-! ## The JS dedupe idiom

Both fetch-eclipse-data.js and the App components deduplicate arrays with
the pattern

  arr.filter((x, index, self) => index === self.findIndex(e => key(e) === key(x)))

i.e. an element is kept iff its index equals the index of the first
element carrying the same key.  jsDedupeByAux transcribes the
filter-with-index directly; jsDedupeBy applies it to the array itself.
-/

def jsDedupeByAux {α κ : Type} (k : α → κ) [DecidableEq κ] (orig : List α) :
    List α → Nat → List α
  | [], _ => []
  | x :: xs, i =>
    if orig.findIdx (fun e => decide (k e = k x)) = i then
      x :: jsDedupeByAux k orig xs (i + 1)
    else
      jsDedupeByAux k orig xs (i + 1)

def jsDedupeBy {α κ : Type} (k : α → κ) [DecidableEq κ] (l : List α) : List α :=
  jsDedupeByAux k l l 0

/-! ## JS Date normalization

new Date(year, month0, day) in JS normalizes out-of-range fields: a year
in 0..99 is offset by 1900, the 0-based month is reduced mod 12 rolling
over into the year (floor semantics), and an out-of-range day rolls the
month (and year) forwards or backwards.  dateCarryF / dateBorrowF perform
the day normalization step by step; the fuel arguments are initialised
with more steps than can ever be consumed (every step moves the day count
by at least 28 towards the valid range).
-/

def isLeapYear (y : Int) : Bool :=
  (y % 4 == 0 && y % 100 != 0) || y % 400 == 0

def daysInMonth (y : Int) (m : Nat) : Nat :=
  match m with
  | 2 => if isLeapYear y then 29 else 28
  | 4 => 30
  | 6 => 30
  | 9 => 30
  | 11 => 30
  | _ => 31

def jsYearAdjust (y : Int) : Int :=
  if 0 ≤ y ∧ y ≤ 99 then y + 1900 else y

def dateCarryF : Nat → Int → Nat → Nat → Int × Nat × Nat
  | 0, y, m, d => (y, m, d)
  | fuel + 1, y, m, d =>
    if d ≤ daysInMonth y m then (y, m, d)
    else if m = 12 then dateCarryF fuel (y + 1) 1 (d - daysInMonth y 12)
    else dateCarryF fuel y (m + 1) (d - daysInMonth y m)

def dateBorrowF : Nat → Int → Nat → Int → Int × Nat × Int
  | 0, y, m, d => (y, m, d)
  | fuel + 1, y, m, d =>
    if 1 ≤ d then (y, m, d)
    else if m = 1 then dateBorrowF fuel (y - 1) 12 (d + daysInMonth (y - 1) 12)
    else dateBorrowF fuel y (m - 1) (d + daysInMonth y (m - 1))

/-- Model of the JS Date(yearRaw, month0, dayRaw) constructor followed by
reading the date back through getFullYear / getMonth / getDate.  The result
is (full year, 1-based month, day). -/
def jsMkDate (yRaw m0 dRaw : Int) : Int × Nat × Nat :=
  let y1 : Int := jsYearAdjust yRaw + Int.fdiv m0 12
  let m1 : Nat := (Int.emod m0 12).toNat + 1
  if 1 ≤ dRaw then
    dateCarryF dRaw.toNat y1 m1 dRaw.toNat
  else
    let r := dateBorrowF (1 - dRaw).toNat y1 m1 dRaw
    (r.1, r.2.1, r.2.2.toNat)

/-! ## Integer ranges and the year-batch loop -/

def intRangeAux : Nat → Int → List Int
  | 0, _ => []
  | n + 1, s => s :: intRangeAux n (s + 1)

/-- List of the integers from s to e inclusive (empty when e < s); this is
what the inner loop for (let year = i; year <= batchEnd; year++) pushes. -/
def intRange (s e : Int) : List Int := intRangeAux (e + 1 - s).toNat s

/-- Model of the batching loop of fetchAllAstronomicalData
(src/unnamed/part_001, lines 152-219): for (let i = startYear;
i <= endYear; i += batchSize) it builds the year list
[i .. min(i + batchSize - 1, endYear)] and processes it; the returned list
is the concatenation of all batch year lists, in processing order.  The
fuel argument bounds the number of loop iterations; the wrapper passes
endYear + 1 - startYear, which is enough for every batchSize ≥ 1. -/
def batchYearsLoopF (batchSize : Nat) (endYear : Int) : Nat → Int → List Int
  | 0, _ => []
  | fuel + 1, i =>
    if i ≤ endYear then
      intRange i (min (i + batchSize - 1) endYear)
        ++ batchYearsLoopF batchSize endYear fuel (i + batchSize)
    else []

def batchYears (startYear endYear : Int) (batchSize : Nat) : List Int :=
  batchYearsLoopF batchSize endYear (endYear + 1 - startYear).toNat startYear

/-! ## Eclipse records (fetch-eclipse-data.js)

EclipseRecord mirrors the objects pushed by parseNASAEclipseData and
calculateEclipses: {year, month, day, date, type, description, source}.
The year field is ℚ because the backwards Saros projection of
calculateEclipses pushes the un-rounded loop variable (year -= 18.03),
which is not an integer; all other producers store integral years.
-/

structure EclipseRecord where
  year : ℚ
  month : Nat
  day : Nat
  date : String
  type : String
  description : String
  source : String
deriving DecidableEq

def eclipseLE (a b : EclipseRecord) : Prop := a.year ≤ b.year

instance : DecidableRel eclipseLE :=
  fun a b => inferInstanceAs (Decidable (a.year ≤ b.year))

instance : IsTotal EclipseRecord eclipseLE :=
  ⟨fun a b => le_total a.year b.year⟩

instance : IsTrans EclipseRecord eclipseLE :=
  ⟨fun _ _ _ hab hbc => le_trans hab hbc⟩

/-- Stable ascending sort by the year field; this models the JS
arr.sort((a, b) => a.year - b.year), which is required to be a stable
sort, and a stable sort by a key is unique. -/
def sortEclipsesByYear (l : List EclipseRecord) : List EclipseRecord :=
  List.insertionSort eclipseLE l

def eclipseKeyYM (e : EclipseRecord) : ℚ × Nat := (e.year, e.month)

def eclipseKeyYMD (e : EclipseRecord) : ℚ × Nat × Nat := (e.year, e.month, e.day)

/-- Model of the merge/deduplicate step of fetchAllEclipseData
(fetch-eclipse-data.js lines 296-311): concatenate the two lists, keep the
first occurrence per (year, month) key, then sort ascending by year. -/
def mergeEclipseLists (l1 l2 : List EclipseRecord) : List EclipseRecord :=
  sortEclipsesByYear (jsDedupeBy eclipseKeyYM (l1 ++ l2))

/-! ## The NASA catalog line parser (parseNASAEclipseData)

Each line of the catalog text is matched against three date regexes in
order, stopping at the first regex that matches anywhere in the line:

  1. (dddd)\s+(www)\s+(d{1,2})   month-name format, e.g. "2024 Mar 25"
  2. (dddd)-(dd)-(dd)            ISO format
  3. (d{1,2})/(d{1,2})/(dddd)    US format

The matchers below implement, per starting position, the deterministic
backtracking behaviour of those regexes (character classes \d, \w, \s;
the {1,2} quantifier is greedy with backtracking); scanFor tries each
starting position from the left, as regex.match does.
-/

def isWordChar (c : Char) : Bool := c.isAlphanum || c = '_'

def isSpaceChar (c : Char) : Bool :=
  c = ' ' || c = '\t' || c = '\n' || c = '\r' || c = '\x0b' || c = '\x0c'

def decDigitVal (c : Char) : Nat := c.toNat - 48

def digitsToNat (cs : List Char) : Nat :=
  cs.foldl (fun acc c => 10 * acc + decDigitVal c) 0

/-- Lookup in the JS monthMap of parseNASAEclipseData; 0 plays the role of
undefined (it is falsy, like undefined, in the record guard). -/
def monthNameNum (s : String) : Nat :=
  if s = "Jan" then 1 else if s = "Feb" then 2 else if s = "Mar" then 3
  else if s = "Apr" then 4 else if s = "May" then 5 else if s = "Jun" then 6
  else if s = "Jul" then 7 else if s = "Aug" then 8 else if s = "Sep" then 9
  else if s = "Oct" then 10 else if s = "Nov" then 11 else if s = "Dec" then 12
  else 0

def matchP1At (cs : List Char) : Option (Nat × Nat × Nat) :=
  match cs with
  | c1 :: c2 :: c3 :: c4 :: rest =>
    if c1.isDigit && c2.isDigit && c3.isDigit && c4.isDigit then
      match rest.span isSpaceChar with
      | (sp1, r1) =>
        if sp1.isEmpty then none
        else
          match r1 with
          | w1 :: w2 :: w3 :: r2 =>
            if isWordChar w1 && isWordChar w2 && isWordChar w3 then
              match r2.span isSpaceChar with
              | (sp2, r3) =>
                if sp2.isEmpty then none
                else
                  match r3 with
                  | d1 :: d2 :: _ =>
                    if d1.isDigit then
                      some (digitsToNat [c1, c2, c3, c4],
                            monthNameNum (String.mk [w1, w2, w3]),
                            if d2.isDigit then digitsToNat [d1, d2]
                            else digitsToNat [d1])
                    else none
                  | [d1] =>
                    if d1.isDigit then
                      some (digitsToNat [c1, c2, c3, c4],
                            monthNameNum (String.mk [w1, w2, w3]),
                            digitsToNat [d1])
                    else none
                  | [] => none
            else none
          | _ => none
    else none
  | _ => none

def matchP2At (cs : List Char) : Option (Nat × Nat × Nat) :=
  match cs with
  | c1 :: c2 :: c3 :: c4 :: h1 :: c5 :: c6 :: h2 :: c7 :: c8 :: _ =>
    if c1.isDigit && c2.isDigit && c3.isDigit && c4.isDigit
        && h1 = '-' && c5.isDigit && c6.isDigit
        && h2 = '-' && c7.isDigit && c8.isDigit then
      some (digitsToNat [c1, c2, c3, c4], digitsToNat [c5, c6], digitsToNat [c7, c8])
    else none
  | _ => none

/-- Candidate parses of a greedy \d{1,2}: the two-digit reading first,
then the one-digit fallback, in the order regex backtracking tries them. -/
def num12Candidates (cs : List Char) : List (Nat × List Char) :=
  match cs with
  | c1 :: c2 :: rest =>
    if c1.isDigit then
      if c2.isDigit then
        [(digitsToNat [c1, c2], rest), (digitsToNat [c1], c2 :: rest)]
      else [(digitsToNat [c1], c2 :: rest)]
    else []
  | [c1] => if c1.isDigit then [(digitsToNat [c1], [])] else []
  | [] => []

def matchP3At (cs : List Char) : Option (Nat × Nat × Nat) :=
  (num12Candidates cs).findSome? (fun mc =>
    match mc.2 with
    | '/' :: r2 =>
      (num12Candidates r2).findSome? (fun dc =>
        match dc.2 with
        | '/' :: y1 :: y2 :: y3 :: y4 :: _ =>
          if y1.isDigit && y2.isDigit && y3.isDigit && y4.isDigit then
            some (mc.1, dc.1, digitsToNat [y1, y2, y3, y4])
          else none
        | _ => none)
    | _ => none)

def scanFor {β : Type} (m : List Char → Option β) : List Char → Option β
  | [] => m []
  | c :: cs =>
    match m (c :: cs) with
    | some r => some r
    | none => scanFor m cs

/-- JS String.prototype.split(sep) for a single separator character,
written over the character list (String.splitOn does not reduce inside
the kernel). -/
def splitOnChar (sep : Char) : List Char → List (List Char)
  | [] => [[]]
  | c :: cs =>
    let r := splitOnChar sep cs
    if c = sep then [] :: r
    else
      match r with
      | [] => [[c]]
      | h :: t => (c :: h) :: t

/-- JS String.prototype.trim over the character list. -/
def trimChars (cs : List Char) : List Char :=
  ((cs.dropWhile isSpaceChar).reverse.dropWhile isSpaceChar).reverse

def padTwo (n : Nat) : String :=
  if n < 10 then "0" ++ toString n else toString n

def mkDateString (y m d : Nat) : String :=
  toString y ++ "-" ++ padTwo m ++ "-" ++ padTwo d

/-- The record guard and push of parseNASAEclipseData: the candidate
(year, month, day) becomes a record iff year, month, day are all truthy
(nonzero) and the year lies in 1960..2100. -/
def mkNASARecord (y m d : Nat) (line : List Char) (eclipseType : String) :
    Option EclipseRecord :=
  if y ≠ 0 ∧ m ≠ 0 ∧ d ≠ 0 ∧ 1960 ≤ y ∧ y ≤ 2100 then
    some { year := (y : ℚ), month := m, day := d,
           date := mkDateString y m d, type := eclipseType,
           description := String.mk (trimChars line),
           source := "NASA Eclipse Catalog" }
  else none

def parseNASALine (eclipseType : String) (line : List Char) : Option EclipseRecord :=
  match scanFor matchP1At line with
  | some (y, m, d) => mkNASARecord y m d line eclipseType
  | none =>
    match scanFor matchP2At line with
    | some (y, m, d) => mkNASARecord y m d line eclipseType
    | none =>
      match scanFor matchP3At line with
      | some (m, d, y) => mkNASARecord y m d line eclipseType
      | none => none

def parseNASAEclipseData (data : String) (eclipseType : String) : List EclipseRecord :=
  (splitOnChar '\n' data.data).filterMap (parseNASALine eclipseType)

/-! ## The Saros-cycle fallback generator (calculateEclipses)

calculateEclipses projects each reference eclipse backwards and forwards
in steps of 18.03 years (exact over ℚ; the JS float64 value differs from
18.03 by an error < 1e-14, which none of the proved properties depend on).
The backwards loop pushes the raw, generally non-integral loop variable
as the record year; the forwards loop pushes Math.round(year).  Each loop
is given fuel of one more than the integer width of its year interval:
since every step moves the loop variable by 18.03 > 1, the loop guard is
already false whenever the fuel runs out, so the fuelled loop agrees with
the unbounded JS loop.
-/

def sarosCycle : ℚ := 18.03

/-- JS Math.round: round half towards positive infinity. -/
def jsRound (q : ℚ) : Int := ⌊q + 1 / 2⌋

def solarRefEclipses : List (Int × Nat × Nat) :=
  [(2024, 4, 8), (2023, 10, 14), (2021, 6, 10), (2020, 6, 21), (2017, 8, 21)]

def lunarRefEclipses : List (Int × Nat × Nat) :=
  [(2024, 3, 25), (2023, 5, 5), (2022, 11, 8), (2022, 5, 16), (2021, 11, 19)]

def ratDateString (y : ℚ) (m d : Nat) : String :=
  toString y ++ "-" ++ padTwo m ++ "-" ++ padTwo d

def calcDescription (eclipseType : String) : String :=
  (if eclipseType = "solar" then "Solar" else "Lunar") ++ " Eclipse (calculated)"

def mkCalcRecord (yr : ℚ) (m d : Nat) (eclipseType : String) : EclipseRecord :=
  { year := yr, month := m, day := d, date := ratDateString yr m d,
    type := eclipseType, description := calcDescription eclipseType,
    source := "Saros Cycle Calculation" }

def sarosBackF (startYear endYear : ℚ) (m d : Nat) (t : String) :
    Nat → ℚ → List EclipseRecord
  | 0, _ => []
  | fuel + 1, yr =>
    if startYear ≤ yr then
      (if startYear ≤ yr ∧ yr ≤ endYear then [mkCalcRecord yr m d t] else [])
        ++ sarosBackF startYear endYear m d t fuel (yr - sarosCycle)
    else []

def sarosFwdF (startYear endYear : ℚ) (m d : Nat) (t : String) :
    Nat → ℚ → List EclipseRecord
  | 0, _ => []
  | fuel + 1, yr =>
    if yr ≤ endYear then
      (if startYear ≤ yr ∧ yr ≤ endYear then
        [mkCalcRecord ((jsRound yr : Int) : ℚ) m d t] else [])
        ++ sarosFwdF startYear endYear m d t fuel (yr + sarosCycle)
    else []

def calcEclipseRefs (eclipseType : String) : List (Int × Nat × Nat) :=
  if eclipseType = "solar" then solarRefEclipses
  else if eclipseType = "lunar" then lunarRefEclipses else []

def calcEclipsesRaw (startYear endYear : Int) (eclipseType : String) :
    List EclipseRecord :=
  (calcEclipseRefs eclipseType).flatMap (fun r =>
    sarosBackF (startYear : ℚ) (endYear : ℚ) r.2.1 r.2.2 eclipseType
      ((r.1 - startYear).toNat + 1) (r.1 : ℚ)
    ++ sarosFwdF (startYear : ℚ) (endYear : ℚ) r.2.1 r.2.2 eclipseType
      ((endYear - r.1).toNat + 1) ((r.1 : ℚ) + sarosCycle))

def calculateEclipses (startYear endYear : Int) (eclipseType : String) :
    List EclipseRecord :=
  sortEclipsesByYear
    (jsDedupeBy eclipseKeyYMD (calcEclipsesRaw startYear endYear eclipseType))

/-! ## The eclipse type classifiers -/

def startsWithList {α : Type} [DecidableEq α] : List α → List α → Bool
  | [], _ => true
  | _ :: _, [] => false
  | a :: as, b :: bs => decide (a = b) && startsWithList as bs

def containsSeg {α : Type} [DecidableEq α] (pat : List α) : List α → Bool
  | [] => startsWithList pat []
  | c :: cs => startsWithList pat (c :: cs) || containsSeg pat cs

/-- JS String.prototype.includes: the pattern occurs contiguously in the
string. -/
def jsIncludes (s sub : String) : Bool := containsSeg sub.data s.data

def capitalizeFirst (s : String) : String :=
  match s.data with
  | [] => ""
  | c :: rest => String.mk (c.toUpper :: rest)

/-- extractEclipseType as defined in deploy-check.js lines 513-527 (and
verbatim again in the eclipse-type test script). -/
def extractEclipseType (description eclipseCategory : String) : String :=
  if eclipseCategory = "solar" then
    if jsIncludes description "   T   " then "Total Solar Eclipse"
    else if jsIncludes description "   A   " then "Annular Solar Eclipse"
    else if jsIncludes description "   P   " then "Partial Solar Eclipse"
    else if jsIncludes description "   H   " then "Hybrid Solar Eclipse"
    else "Solar Eclipse"
  else if eclipseCategory = "lunar" then
    if jsIncludes description "   T-  " || jsIncludes description "   T+  " then
      "Total Lunar Eclipse"
    else if jsIncludes description "   P   " then "Partial Lunar Eclipse"
    else if jsIncludes description "   N   " then "Penumbral Lunar Eclipse"
    else "Lunar Eclipse"
  else capitalizeFirst eclipseCategory ++ " Eclipse"

/-- The short classifier of the database-summary script
(src/unnamed/part_004 lines 75-88); its else branch covers every
non-solar category. -/
def extractEclipseTypeSummary (description eclipseCategory : String) : String :=
  if eclipseCategory = "solar" then
    if jsIncludes description "   T   " then "Total"
    else if jsIncludes description "   A   " then "Annular"
    else if jsIncludes description "   P   " then "Partial"
    else if jsIncludes description "   H   " then "Hybrid"
    else "Unspecified"
  else
    if jsIncludes description "   T-  " || jsIncludes description "   T+  " then "Total"
    else if jsIncludes description "   P   " then "Partial"
    else if jsIncludes description "   N   " then "Penumbral"
    else "Unspecified"

/-! ## The JSON-data birthday matcher (deploy-check.js App component)

The birth date reaches processJSONAstronomicalData as a string and is
immediately decomposed via getFullYear / getMonth()+1 / getDate; the
embedding takes that decomposed triple (birthYear, birthMonth 1-12,
birthDay) as input.  The moonPhases object (year key → year record) is an
association list; JS object iteration visits integer-like keys in
ascending order, but no proved property depends on the iteration order
because every result list is sorted at the end.
-/

structure MoonPhaseRec where
  year : Nat
  month : Nat
  day : Nat
  phase : String
  time : String
deriving DecidableEq

structure MoonYearRecord where
  success : Bool
  phases : List MoonPhaseRec
deriving DecidableEq

/-- parseJSONPhaseDate: null when year, month or day is falsy (absent or
0) or the 0-based month is out of 0..11, otherwise the normalized JS
Date(year, month-1, day) as (full year, 1-based month, day). -/
def parseJSONPhaseDate (p : MoonPhaseRec) : Option (Int × Nat × Nat) :=
  if p.year = 0 || p.month = 0 || p.day = 0 then none
  else
    let month0 : Int := (p.month : Int) - 1
    if month0 < 0 || 11 < month0 then none
    else some (jsMkDate (p.year : Int) month0 (p.day : Int))

def phaseDateMatches (birthMonth birthDay : Nat) (p : MoonPhaseRec) : Bool :=
  match parseJSONPhaseDate p with
  | none => false
  | some pd => decide (pd.2.1 = birthMonth) && decide (pd.2.2 = birthDay)

/-- The years pushed into one of the four bucket arrays of
processJSONAstronomicalData, before the final numeric sort: for every
success:true year entry not before the birth year, one copy of the year
per phase record that parses to the birth (month, day) and whose phase
field is one of the bucket's names. -/
def yearBucket (phaseNames : List String) (birthYear : Int)
    (birthMonth birthDay : Nat)
    (moonPhases : List (Nat × MoonYearRecord)) : List Nat :=
  moonPhases.flatMap (fun e =>
    if e.2.success && decide (birthYear ≤ (e.1 : Int)) then
      (e.2.phases.filter (fun p =>
        phaseDateMatches birthMonth birthDay p
          && phaseNames.contains p.phase)).map (fun _ => e.1)
    else [])

structure MatchedEclipse where
  year : ℚ
  type : String
  category : String
  description : String
  date : String
  rawDescription : String
deriving DecidableEq

def matchedLE (a b : MatchedEclipse) : Prop := a.year ≤ b.year

instance : DecidableRel matchedLE :=
  fun a b => inferInstanceAs (Decidable (a.year ≤ b.year))

instance : IsTotal MatchedEclipse matchedLE :=
  ⟨fun a b => le_total a.year b.year⟩

instance : IsTrans MatchedEclipse matchedLE :=
  ⟨fun _ _ _ hab hbc => le_trans hab hbc⟩

def matchEclipseRecord (category : String) (e : EclipseRecord) : MatchedEclipse :=
  let t := extractEclipseType e.description (if category = "Solar" then "solar" else "lunar")
  { year := e.year, type := t, category := category,
    description := t ++ " on your birthday", date := e.date,
    rawDescription := e.description }

/-- processEclipseData (deploy-check.js lines 500-566): keep the records
of both lists with year ≥ filterYear and (month, day) equal to the birth
(month, day), tag each with its extracted type, and sort by year.  No
deduplication is performed. -/
def processEclipseData (filterYear : Int) (birthMonth birthDay : Nat)
    (solarEclipses lunarEclipses : List EclipseRecord) : List MatchedEclipse :=
  let keep := fun (e : EclipseRecord) =>
    decide ((filterYear : ℚ) ≤ e.year)
      && decide (e.month = birthMonth) && decide (e.day = birthDay)
  let solarMatches := (solarEclipses.filter keep).map (matchEclipseRecord "Solar")
  let lunarMatches := (lunarEclipses.filter keep).map (matchEclipseRecord "Lunar")
  List.insertionSort matchedLE (solarMatches ++ lunarMatches)

structure JSONResults where
  fullMoon : List Nat
  newMoon : List Nat
  firstQuarter : List Nat
  lastQuarter : List Nat
  eclipses : List MatchedEclipse
deriving DecidableEq

def processJSONAstronomicalData (birthYear : Int) (birthMonth birthDay : Nat)
    (moonPhases : List (Nat × MoonYearRecord))
    (solarEclipses lunarEclipses : List EclipseRecord) : JSONResults :=
  { fullMoon := List.insertionSort (fun a b : Nat => a ≤ b)
      (yearBucket ["Full Moon"] birthYear birthMonth birthDay moonPhases),
    newMoon := List.insertionSort (fun a b : Nat => a ≤ b)
      (yearBucket ["New Moon"] birthYear birthMonth birthDay moonPhases),
    firstQuarter := List.insertionSort (fun a b : Nat => a ≤ b)
      (yearBucket ["First Quarter"] birthYear birthMonth birthDay moonPhases),
    lastQuarter := List.insertionSort (fun a b : Nat => a ≤ b)
      (yearBucket ["Last Quarter", "Third Quarter"] birthYear birthMonth birthDay moonPhases),
    eclipses := processEclipseData birthYear birthMonth birthDay
      solarEclipses lunarEclipses }

/-! ## The live-data birthday matcher (App component)

processMoonPhases and processEclipses consume the per-phase / per-eclipse
arrays fetched live.  Dates reach them as strings; parseUSNODate and
parseOPALEDate model the corresponding JS parsing, returning the
normalized (full year, 1-based month, day) triple that the matching code
reads back through getFullYear / getMonth / getDate.  A JS Invalid Date is
truthy but its NaN fields can never satisfy isSameDayMonth, so returning
none for an unparseable string is behaviourally equal; local time is taken
to agree with UTC for ISO date strings.
-/

def hexDigitVal (c : Char) : Option Nat :=
  if c.isDigit then some (decDigitVal c)
  else if 'A' ≤ c && c ≤ 'F' then some (c.toNat - 55)
  else if 'a' ≤ c && c ≤ 'f' then some (c.toNat - 87)
  else none

def takeDigitsAcc (base : Nat) (dv : Char → Option Nat) : List Char → Nat → Nat
  | [], acc => acc
  | c :: cs, acc =>
    match dv c with
    | some v => takeDigitsAcc base dv cs (acc * base + v)
    | none => acc

/-- JS parseInt with no radix argument: skip leading whitespace, optional
sign, auto-detected 0x/0X hex prefix, then the longest digit prefix;
none models NaN. -/
def jsParseInt (s : String) : Option Int :=
  let cs := s.data.dropWhile isSpaceChar
  let signAndRest : Int × List Char :=
    match cs with
    | '-' :: r => (-1, r)
    | '+' :: r => (1, r)
    | r => (1, r)
  let sign := signAndRest.1
  match signAndRest.2 with
  | '0' :: x :: r =>
    if x = 'x' || x = 'X' then
      match r with
      | c :: _ =>
        if (hexDigitVal c).isSome then
          some (sign * (takeDigitsAcc 16 hexDigitVal r 0 : Int))
        else none
      | [] => none
    else
      some (sign * (takeDigitsAcc 10 (fun c => if c.isDigit then some (decDigitVal c) else none) ('0' :: x :: r) 0 : Int))
  | c :: rest =>
    if c.isDigit then
      some (sign * (takeDigitsAcc 10 (fun c => if c.isDigit then some (decDigitVal c) else none) (c :: rest) 0 : Int))
    else none
  | [] => none

/-- The 0-based monthMap of parseUSNODate. -/
def monthName0 (s : String) : Option Nat :=
  if s = "Jan" then some 0 else if s = "Feb" then some 1
  else if s = "Mar" then some 2 else if s = "Apr" then some 3
  else if s = "May" then some 4 else if s = "Jun" then some 5
  else if s = "Jul" then some 6 else if s = "Aug" then some 7
  else if s = "Sep" then some 8 else if s = "Oct" then some 9
  else if s = "Nov" then some 10 else if s = "Dec" then some 11
  else none

/-- parseUSNODate: trim, split on single spaces, parseInt the year and
day, look the month name up in the 0-based map, build the JS Date. -/
def parseUSNODate (dateStr : String) : Option (Int × Nat × Nat) :=
  match dateStr.trim.splitOn " " with
  | p0 :: p1 :: p2 :: _ =>
    match jsParseInt p0, monthName0 p1, jsParseInt p2 with
    | some y, some m0, some d => some (jsMkDate y (m0 : Int) d)
    | _, _, _ => none
  | _ => none

/-- parseOPALEDate: new Date(isoString) for an ISO YYYY-MM-DD prefix
(optionally continued by a T... time part); out-of-range components give
an Invalid Date, modelled as none. -/
def parseOPALEDate (dateStr : String) : Option (Int × Nat × Nat) :=
  match dateStr.data with
  | y1 :: y2 :: y3 :: y4 :: '-' :: m1 :: m2 :: '-' :: d1 :: d2 :: rest =>
    if y1.isDigit && y2.isDigit && y3.isDigit && y4.isDigit
        && m1.isDigit && m2.isDigit && d1.isDigit && d2.isDigit
        && (rest.isEmpty || rest.headD ' ' = 'T') then
      let y := digitsToNat [y1, y2, y3, y4]
      let m := digitsToNat [m1, m2]
      let d := digitsToNat [d1, d2]
      if 1 ≤ m ∧ m ≤ 12 ∧ 1 ≤ d ∧ d ≤ daysInMonth (y : Int) m then
        some ((y : Int), m, d)
      else none
    else none
  | _ => none

/-- isSameDayMonth: getDate and getMonth agree (the year is ignored). -/
def sameDayMonth (a b : Int × Nat × Nat) : Bool :=
  decide (a.2.2 = b.2.2) && decide (a.2.1 = b.2.1)

structure USNOPhase where
  date : String
  phase : String
deriving DecidableEq

structure MoonResults where
  fullMoon : List Int
  newMoon : List Int
deriving DecidableEq

/-- The accumulating forEach of processMoonPhases: a year is appended to
the full-moon (resp. new-moon) list only if the list does not already
include it. -/
def processMoonPhasesAux (birth : Int × Nat × Nat) :
    List USNOPhase → List Int → List Int → List Int × List Int
  | [], fm, nm => (fm, nm)
  | ph :: rest, fm, nm =>
    match parseUSNODate ph.date with
    | none => processMoonPhasesAux birth rest fm nm
    | some pd =>
      if sameDayMonth pd birth then
        let yr := pd.1
        if ph.phase = "Full Moon" && !(fm.contains yr) then
          processMoonPhasesAux birth rest (fm ++ [yr]) nm
        else if ph.phase = "New Moon" && !(nm.contains yr) then
          processMoonPhasesAux birth rest fm (nm ++ [yr])
        else
          processMoonPhasesAux birth rest fm nm
      else processMoonPhasesAux birth rest fm nm

def processMoonPhases (phases : List USNOPhase) (birth : Int × Nat × Nat) :
    MoonResults :=
  let acc := processMoonPhasesAux birth phases [] []
  { fullMoon := List.insertionSort (fun a b : Int => a ≤ b) acc.1,
    newMoon := List.insertionSort (fun a b : Int => a ≤ b) acc.2 }

structure RawEclipse where
  date : String
  type : String
  description : String
deriving DecidableEq

structure EclipseEvent where
  year : Int
  type : String
  description : String
  date : Int × Nat × Nat
deriving DecidableEq

def eventLE (a b : EclipseEvent) : Prop := a.year ≤ b.year

instance : DecidableRel eventLE :=
  fun a b => inferInstanceAs (Decidable (a.year ≤ b.year))

instance : IsTotal EclipseEvent eventLE :=
  ⟨fun a b => le_total a.year b.year⟩

instance : IsTrans EclipseEvent eventLE :=
  ⟨fun _ _ _ hab hbc => le_trans hab hbc⟩

/-- JS a || b || c over strings: the first truthy (non-empty) one. -/
def firstNonEmpty (a b c : String) : String :=
  if a ≠ "" then a else if b ≠ "" then b else c

def eventKeyYT (ev : EclipseEvent) : Int × String := (ev.year, ev.type)

/-- processEclipses (App component): collect the solar then lunar records
whose date parses and matches the birth (day, month), label them
Solar/Lunar Eclipse, then remove duplicates by (year, type) keeping first
occurrences, and sort ascending by year. -/
def processEclipses (solarEclipses lunarEclipses : List RawEclipse)
    (birth : Int × Nat × Nat) : List EclipseEvent :=
  let collect : String → List RawEclipse → List EclipseEvent :=
    fun label l =>
    l.filterMap (fun e =>
      match parseOPALEDate e.date with
      | some d =>
        if sameDayMonth d birth then
          some { year := d.1, type := label,
                 description := firstNonEmpty e.description e.type label,
                 date := d }
        else none
      | none => none)
  let eclipseEvents :=
    collect "Solar Eclipse" solarEclipses ++ collect "Lunar Eclipse" lunarEclipses
  List.insertionSort eventLE (jsDedupeBy eventKeyYT eclipseEvents)

/-! ## The per-year moon-phase fetch (src/unnamed/part_003)

fetchMoonPhasesYear awaits makeRequest and JSON.parse inside a try/catch.
The outcome of that awaited step is the input of the model: fetchError
covers a rejected request (network error, timeout, non-200 status) as
well as a JSON.parse throw; parsedNoPhaseData covers a parsed body that
is falsy or lacks a truthy phasedata field; parsedPhases carries the
phasedata array of a successful parse.
-/

inductive YearFetchOutcome where
  | fetchError (msg : String)
  | parsedNoPhaseData
  | parsedPhases (phases : List MoonPhaseRec)
deriving DecidableEq

structure YearFetchResult where
  year : Int
  success : Bool
  phases : List MoonPhaseRec
  count : Option Nat
  error : Option String
deriving DecidableEq

def fetchMoonPhasesYear (year : Int) : YearFetchOutcome → YearFetchResult
  | .fetchError msg =>
    { year := year, success := false, phases := [], count := none,
      error := some msg }
  | .parsedNoPhaseData =>
    { year := year, success := false, phases := [], count := none,
      error := some "No phase data in response" }
  | .parsedPhases ps =>
    { year := year, success := true, phases := ps, count := some ps.length,
      error := none }

/-- Selects the result list that the switch statement of
processJSONAstronomicalData appends to for a given phase name. -/
def phaseBucketOf (r : JSONResults) (phaseName : String) : List Nat :=
  if phaseName = "Full Moon" then r.fullMoon
  else if phaseName = "New Moon" then r.newMoon
  else if phaseName = "First Quarter" then r.firstQuarter
  else r.lastQuarter

/-! ## Sample data used by concrete scenarios -/

def solarSampleFirst : EclipseRecord :=
  { year := 2024, month := 4, day := 8, date := "2024-04-08", type := "solar",
    description := "first", source := "NASA Eclipse Catalog" }

def solarSampleSecond : EclipseRecord :=
  { year := 2024, month := 4, day := 20, date := "2024-04-20", type := "solar",
    description := "second", source := "Saros Cycle Calculation" }

def solarSample2025 : EclipseRecord :=
  { year := 2025, month := 5, day := 1, date := "2025-05-01", type := "solar",
    description := "third", source := "NASA Eclipse Catalog" }

def c3SampleRecord : EclipseRecord :=
  { year := 2024, month := 3, day := 25, date := "2024-03-25", type := "solar",
    description := "2024 Mar 25", source := "NASA Eclipse Catalog" }

/-! ## Claim C1 -/

def c1Phase : MoonPhaseRec :=
  { year := 2030, month := 8, day := 11, phase := "Full Moon", time := "" }

def c1Dataset : List (Nat × MoonYearRecord) :=
  [(2030, { success := true, phases := [c1Phase] })]

/-! ## Claim C7 -/

def c7Phase : MoonPhaseRec :=
  { year := 2030, month := 8, day := 11, phase := "Full Moon", time := "" }

/-! ## Claim C8 -/

def c8SolarRecord : EclipseRecord :=
  { year := 2024, month := 4, day := 8, date := "2024-04-08", type := "solar",
    description := "dup", source := "NASA Eclipse Catalog" }

/-! ## Theorems -/

theorem jsDedupeByAux_cons {α κ : Type} (k : α → κ) [DecidableEq κ]
    (x : α) (orig ys : List α) (i : Nat) :
    jsDedupeByAux k (x :: orig) ys (i + 1)
      = (jsDedupeByAux k orig ys i).filter (fun y => decide (k y ≠ k x)) := by
  induction ys generalizing i with
  | nil => rfl
  | cons y ys ih =>
    simp only [jsDedupeByAux, List.findIdx_cons]
    by_cases hk : k x = k y
    · have hdx : (decide (k x = k y)) = true := by simp [hk]
      rw [hdx, cond_true, if_neg (by omega : ¬ (0 : Nat) = i + 1), ih]
      by_cases hi : orig.findIdx (fun e => decide (k e = k y)) = i
      · rw [if_pos hi, List.filter_cons]
        have hdy : (decide (k y ≠ k x)) = false := by simp [hk.symm]
        rw [hdy]
        simp
      · rw [if_neg hi]
    · have hdx : (decide (k x = k y)) = false := by simp [hk]
      rw [hdx, cond_false]
      by_cases hi : orig.findIdx (fun e => decide (k e = k y)) = i
      · rw [hi, if_pos rfl, if_pos rfl, ih, List.filter_cons]
        have hdy : (decide (k y ≠ k x)) = true := by
          simp only [ne_eq, decide_eq_true_eq]
          exact fun h => hk h.symm
        rw [hdy]
        simp
      · rw [if_neg (by omega : ¬ List.findIdx (fun e => decide (k e = k y)) orig + 1 = i + 1),
          if_neg hi, ih]

theorem jsDedupeBy_cons {α κ : Type} (k : α → κ) [DecidableEq κ] (x : α) (xs : List α) :
    jsDedupeBy k (x :: xs)
      = x :: (jsDedupeBy k xs).filter (fun y => decide (k y ≠ k x)) := by
  show jsDedupeByAux k (x :: xs) (x :: xs) 0
      = x :: (jsDedupeByAux k xs xs 0).filter (fun y => decide (k y ≠ k x))
  simp only [jsDedupeByAux, List.findIdx_cons, decide_True, cond_true, if_true]
  exact congrArg (x :: ·) (jsDedupeByAux_cons k x xs xs 0)

theorem jsDedupeBy_sublist {α κ : Type} (k : α → κ) [DecidableEq κ] (l : List α) :
    (jsDedupeBy k l).Sublist l := by
  induction l with
  | nil => simp [jsDedupeBy, jsDedupeByAux]
  | cons x xs ih =>
    rw [jsDedupeBy_cons]
    exact ((List.filter_sublist _).trans ih).cons₂ x

theorem mem_of_mem_jsDedupeBy {α κ : Type} {k : α → κ} [DecidableEq κ]
    {l : List α} {x : α} (h : x ∈ jsDedupeBy k l) : x ∈ l :=
  (jsDedupeBy_sublist k l).mem h

theorem jsDedupeBy_pairwise_keys {α κ : Type} (k : α → κ) [DecidableEq κ] (l : List α) :
    (jsDedupeBy k l).Pairwise (fun a b => k a ≠ k b) := by
  induction l with
  | nil => simp [jsDedupeBy, jsDedupeByAux]
  | cons x xs ih =>
    rw [jsDedupeBy_cons]
    refine List.Pairwise.cons ?_ (ih.filter _)
    intro y hy
    have hfilt := List.of_mem_filter hy
    simp only [ne_eq, decide_eq_true_eq] at hfilt
    exact fun hxy => hfilt hxy.symm

theorem jsDedupeBy_eq_self {α κ : Type} {k : α → κ} [DecidableEq κ] {l : List α}
    (h : l.Pairwise (fun a b => k a ≠ k b)) : jsDedupeBy k l = l := by
  induction l with
  | nil => simp [jsDedupeBy, jsDedupeByAux]
  | cons x xs ih =>
    rw [jsDedupeBy_cons, ih (List.Pairwise.of_cons h)]
    rw [List.pairwise_cons] at h
    refine congrArg (x :: ·) (List.filter_eq_self.mpr ?_)
    intro y hy
    simp only [ne_eq, decide_eq_true_eq]
    exact fun hyx => (h.1 y hy) hyx.symm

theorem jsDedupeBy_filter_comm {α κ : Type} (k : α → κ) [DecidableEq κ]
    (p : κ → Bool) (l : List α) :
    jsDedupeBy k (l.filter (fun y => p (k y)))
      = (jsDedupeBy k l).filter (fun y => p (k y)) := by
  induction l with
  | nil => simp [jsDedupeBy, jsDedupeByAux]
  | cons x xs ih =>
    rw [List.filter_cons, jsDedupeBy_cons]
    by_cases hp : p (k x) = true
    · rw [if_pos hp, jsDedupeBy_cons, ih, List.filter_cons, if_pos hp,
        List.filter_filter, List.filter_filter]
      refine congrArg (x :: ·) (List.filter_congr ?_)
      intro y _
      exact Bool.and_comm _ _
    · rw [if_neg hp, ih, List.filter_cons, if_neg hp, List.filter_filter]
      refine List.filter_congr ?_
      intro y _
      by_cases hpy : p (k y) = true
      · have hne : (decide (k y ≠ k x)) = true := by
          simp only [ne_eq, decide_eq_true_eq]
          intro hcontra
          rw [hcontra] at hpy
          exact hp hpy
        simp [hpy, hne]
      · simp only [Bool.not_eq_true] at hpy
        simp [hpy]

theorem jsDedupeBy_append {α κ : Type} (k : α → κ) [DecidableEq κ]
    (l1 l2 : List α) :
    jsDedupeBy k (l1 ++ l2)
      = jsDedupeBy k l1
        ++ jsDedupeBy k (l2.filter (fun y => decide (k y ∉ l1.map k))) := by
  induction l1 generalizing l2 with
  | nil =>
    rw [List.nil_append]
    have hall : l2.filter (fun y => decide (k y ∉ ([] : List α).map k)) = l2 := by
      refine List.filter_eq_self.mpr ?_
      intro y _
      simp
    rw [hall]
    rfl
  | cons x l1 ih =>
    rw [List.cons_append, jsDedupeBy_cons, jsDedupeBy_cons, ih, List.filter_append,
      List.cons_append]
    refine congrArg (x :: ·) (congrArg _ ?_)
    have hcomm := jsDedupeBy_filter_comm k (fun c => decide (c ≠ k x))
      (l2.filter (fun y => decide (k y ∉ l1.map k)))
    rw [← hcomm, List.filter_filter]
    refine congrArg (jsDedupeBy k) (List.filter_congr ?_)
    intro y _
    simp only [List.map_cons, List.mem_cons, not_or, ne_eq, decide_eq_true_eq]
    by_cases h1 : k y = k x
    · simp [h1]
    · by_cases h2 : k y ∈ l1.map k <;> simp [h1, h2]

theorem jsDedupeBy_append_self {α κ : Type} (k : α → κ) [DecidableEq κ] (l : List α) :
    jsDedupeBy k (l ++ l) = jsDedupeBy k l := by
  rw [jsDedupeBy_append]
  have h : l.filter (fun y => decide (k y ∉ l.map k)) = [] := by
    rw [List.filter_eq_nil_iff]
    intro y hy
    simp only [decide_eq_true_eq, Decidable.not_not]
    exact List.mem_map_of_mem k hy
  rw [h]
  show jsDedupeBy k l ++ jsDedupeBy k [] = jsDedupeBy k l
  rw [show jsDedupeBy k ([] : List α) = [] from rfl, List.append_nil]

theorem mem_jsDedupeBy {α κ : Type} (k : α → κ) [DecidableEq κ]
    (l : List α) (x : α) :
    x ∈ jsDedupeBy k l ↔ l.find? (fun e => decide (k e = k x)) = some x := by
  induction l with
  | nil => simp [jsDedupeBy, jsDedupeByAux]
  | cons y ys ih =>
    rw [jsDedupeBy_cons, List.find?_cons]
    by_cases hk : k y = k x
    · have hdy : (decide (k y = k x)) = true := by simp [hk]
      simp only [List.find?_cons, hdy]
      simp only [List.mem_cons, Option.some.injEq]
      constructor
      · rintro (rfl | hmem)
        · rfl
        · have hfilt := List.of_mem_filter hmem
          simp only [ne_eq, decide_eq_true_eq] at hfilt
          exact absurd hk.symm hfilt
      · intro h
        exact Or.inl h.symm
    · have hdy : (decide (k y = k x)) = false := by simp [hk]
      simp only [List.find?_cons, hdy]
      simp only [List.mem_cons]
      constructor
      · rintro (rfl | hmem)
        · exact absurd rfl hk
        · exact ih.mp (List.mem_of_mem_filter hmem)
      · intro h
        refine Or.inr (List.mem_filter.mpr ⟨ih.mpr h, ?_⟩)
        simp only [ne_eq, decide_eq_true_eq]
        exact fun hxy => hk hxy.symm

theorem daysInMonth_ge (y : Int) (m : Nat) : 28 ≤ daysInMonth y m := by
  unfold daysInMonth
  split
  · split <;> omega
  all_goals omega

theorem dateCarryF_of_le (fuel : Nat) (y : Int) (m d : Nat)
    (h : d ≤ daysInMonth y m) : dateCarryF fuel y m d = (y, m, d) := by
  cases fuel with
  | zero => rfl
  | succ fuel => exact if_pos h

/-- On an in-range date the JS Date constructor is the identity (up to the
1900 offset applied to two-digit years). -/
theorem jsMkDate_valid (y : Int) (m d : Nat)
    (hm1 : 1 ≤ m) (hm2 : m ≤ 12) (hd1 : 1 ≤ d)
    (hd2 : d ≤ daysInMonth (jsYearAdjust y) m) :
    jsMkDate y ((m : Int) - 1) (d : Int) = (jsYearAdjust y, m, d) := by
  have hdpos : (1 : Int) ≤ (d : Int) := by exact_mod_cast hd1
  have h0 : (0 : Int) ≤ (m : Int) - 1 := by omega
  have hlt : (m : Int) - 1 < 12 := by omega
  have hf : Int.fdiv ((m : Int) - 1) 12 = 0 := by
    rw [Int.fdiv_eq_ediv _ (by norm_num)]
    exact Int.ediv_eq_zero_of_lt h0 hlt
  have he : Int.emod ((m : Int) - 1) 12 = (m : Int) - 1 := Int.emod_eq_of_lt h0 hlt
  have hmm : ((m : Int) - 1).toNat + 1 = m := by omega
  unfold jsMkDate
  rw [if_pos hdpos, hf, he, add_zero, hmm, Int.toNat_natCast]
  exact dateCarryF_of_le _ _ _ _ hd2

theorem mem_intRangeAux (n : Nat) (s y : Int) :
    y ∈ intRangeAux n s ↔ s ≤ y ∧ y < s + n := by
  induction n generalizing s with
  | zero => simp [intRangeAux]
  | succ n ih =>
    simp only [intRangeAux, List.mem_cons, ih]
    constructor
    · rintro (rfl | ⟨h1, h2⟩) <;> constructor <;> omega
    · rintro ⟨h1, h2⟩
      by_cases hy : y = s
      · exact Or.inl hy
      · exact Or.inr ⟨by omega, by push_cast at h2; omega⟩

theorem mem_intRange (s e y : Int) : y ∈ intRange s e ↔ s ≤ y ∧ y ≤ e := by
  rw [intRange, mem_intRangeAux]
  omega

theorem nodup_intRangeAux (n : Nat) (s : Int) : (intRangeAux n s).Nodup := by
  induction n generalizing s with
  | zero => simp [intRangeAux]
  | succ n ih =>
    simp only [intRangeAux, List.nodup_cons]
    refine ⟨fun hmem => ?_, ih (s + 1)⟩
    rw [mem_intRangeAux] at hmem
    omega

theorem nodup_intRange (s e : Int) : (intRange s e).Nodup :=
  nodup_intRangeAux _ s

theorem length_intRangeAux (n : Nat) (s : Int) : (intRangeAux n s).length = n := by
  induction n generalizing s with
  | zero => rfl
  | succ n ih => simp [intRangeAux, ih]

theorem length_intRange (s e : Int) : (intRange s e).length = (e + 1 - s).toNat :=
  length_intRangeAux _ s

theorem intRangeAux_append (a b : Nat) (s : Int) :
    intRangeAux (a + b) s = intRangeAux a s ++ intRangeAux b (s + a) := by
  induction a generalizing s with
  | zero => simp [intRangeAux]
  | succ a ih =>
    have hab : a + 1 + b = (a + b) + 1 := by omega
    rw [hab]
    simp only [intRangeAux, List.cons_append, ih (s + 1)]
    have : s + 1 + (a : Int) = s + ((a : Nat) + 1 : Nat) := by push_cast; ring
    rw [this]

theorem batchYearsLoopF_eq_intRange (batchSize : Nat) (hbs : 0 < batchSize)
    (endYear : Int) (fuel : Nat) (i : Int)
    (hfuel : (endYear + 1 - i).toNat ≤ fuel) :
    batchYearsLoopF batchSize endYear fuel i = intRange i endYear := by
  induction fuel generalizing i with
  | zero =>
    have : endYear < i := by omega
    simp only [batchYearsLoopF]
    rw [intRange, (by omega : (endYear + 1 - i).toNat = 0)]
    rfl
  | succ fuel ih =>
    by_cases hi : i ≤ endYear
    · simp only [batchYearsLoopF, if_pos hi]
      rw [ih (i + batchSize) (by omega)]
      rcases le_total (i + batchSize - 1) endYear with hle | hge
      · rw [min_eq_left hle]
        have h1 : intRange i (i + batchSize - 1) = intRangeAux batchSize i := by
          rw [intRange, (by omega : (i + batchSize - 1 + 1 - i).toNat = batchSize)]
        have h2 : intRange (i + batchSize) endYear
            = intRangeAux (endYear + 1 - (i + batchSize)).toNat (i + batchSize) := rfl
        have h3 : (endYear + 1 - i).toNat
            = batchSize + (endYear + 1 - (i + batchSize)).toNat := by omega
        rw [h1, h2, intRange, h3, intRangeAux_append]
      · rw [min_eq_right hge]
        have hempty : intRange (i + batchSize) endYear = [] := by
          rw [intRange, (by omega : (endYear + 1 - (i + batchSize)).toNat = 0)]
          rfl
        rw [hempty, List.append_nil]
    · simp only [batchYearsLoopF, if_neg hi]
      rw [intRange, (by omega : (endYear + 1 - i).toNat = 0)]
      rfl

theorem batchYears_eq_intRange (startYear endYear : Int) (batchSize : Nat)
    (hbs : 0 < batchSize) :
    batchYears startYear endYear batchSize = intRange startYear endYear :=
  batchYearsLoopF_eq_intRange batchSize hbs endYear _ startYear le_rfl

/-! ## Supporting lemmas about the embedded operations -/

theorem mem_yearBucket_intro (phaseNames : List String) (birthYear : Int)
    (birthMonth birthDay : Nat) (moonPhases : List (Nat × MoonYearRecord))
    (y : Nat) (rec : MoonYearRecord) (p : MoonPhaseRec)
    (hmem : (y, rec) ∈ moonPhases) (hsucc : rec.success = true)
    (hyear : birthYear ≤ (y : Int)) (hp : p ∈ rec.phases)
    (hmatch : phaseDateMatches birthMonth birthDay p = true)
    (hname : p.phase ∈ phaseNames) :
    y ∈ yearBucket phaseNames birthYear birthMonth birthDay moonPhases := by
  simp only [yearBucket, List.mem_flatMap]
  refine ⟨(y, rec), hmem, ?_⟩
  rw [if_pos (by simp [hsucc, hyear])]
  simp only [List.mem_map]
  refine ⟨p, List.mem_filter.mpr ⟨hp, by simp [hmatch, hname]⟩, by trivial⟩

theorem yearBucket_lower_bound (phaseNames : List String) (birthYear : Int)
    (birthMonth birthDay : Nat) (moonPhases : List (Nat × MoonYearRecord)) :
    ∀ z ∈ yearBucket phaseNames birthYear birthMonth birthDay moonPhases,
      birthYear ≤ (z : Int) := by
  intro z hz
  simp only [yearBucket, List.mem_flatMap] at hz
  obtain ⟨e, _, hz⟩ := hz
  by_cases hg : (e.2.success && decide (birthYear ≤ (e.1 : Int))) = true
  · rw [if_pos hg] at hz
    simp only [List.mem_map] at hz
    obtain ⟨_, _, rfl⟩ := hz
    simp only [Bool.and_eq_true, decide_eq_true_eq] at hg
    exact hg.2
  · rw [if_neg hg] at hz
    exact absurd hz (List.not_mem_nil z)

theorem parseJSONPhaseDate_valid (p : MoonPhaseRec)
    (hpy : p.year ≠ 0) (hpm1 : 1 ≤ p.month) (hpm2 : p.month ≤ 12)
    (hpd1 : 1 ≤ p.day)
    (hpd2 : p.day ≤ daysInMonth (jsYearAdjust (p.year : Int)) p.month) :
    parseJSONPhaseDate p
      = some (jsYearAdjust (p.year : Int), p.month, p.day) := by
  unfold parseJSONPhaseDate
  rw [if_neg (by simp; omega)]
  rw [if_neg (by simp; omega)]
  exact congrArg some (jsMkDate_valid (p.year : Int) p.month p.day hpm1 hpm2 hpd1 hpd2)

theorem phaseDateMatches_of_valid (p : MoonPhaseRec) (birthMonth birthDay : Nat)
    (hpy : p.year ≠ 0) (hpm1 : 1 ≤ p.month) (hpm2 : p.month ≤ 12)
    (hpd1 : 1 ≤ p.day)
    (hpd2 : p.day ≤ daysInMonth (jsYearAdjust (p.year : Int)) p.month)
    (hm : p.month = birthMonth) (hd : p.day = birthDay) :
    phaseDateMatches birthMonth birthDay p = true := by
  unfold phaseDateMatches
  rw [parseJSONPhaseDate_valid p hpy hpm1 hpm2 hpd1 hpd2]
  simp [hm, hd]

theorem mkNASARecord_bounds {y m d : Nat} {line : List Char} {t : String}
    {r : EclipseRecord} (h : mkNASARecord y m d line t = some r) :
    ((1960 : ℚ) ≤ r.year ∧ r.year ≤ 2100) ∧ 1 ≤ r.month := by
  unfold mkNASARecord at h
  split at h
  case isTrue hcond =>
    obtain ⟨hy0, hm0, hd0, hy1, hy2⟩ := hcond
    have hr := Option.some.inj h
    subst hr
    refine ⟨⟨?_, ?_⟩, ?_⟩
    · show (1960 : ℚ) ≤ (y : ℚ)
      exact_mod_cast hy1
    · show (y : ℚ) ≤ 2100
      exact_mod_cast hy2
    · show 1 ≤ m
      omega
  case isFalse => exact absurd h (by simp)

/-! ## Claim C2 -/

/-- C2: for every two lists of EclipseRecord, the merge/dedupe step of
fetchAllEclipseData returns the concatenation with duplicates removed
keeping the first occurrence per (year, month) key, sorted ascending by
year: the result is sorted, its (year, month) keys are pairwise distinct,
and an element belongs to it exactly when it is the first element of the
concatenation carrying its (year, month) key; in particular merging two
solar lists both containing a (2024, 4) entry yields exactly the
first-seen entry for that key. -/
theorem C2_merge_dedupe :
    (∀ l1 l2 : List EclipseRecord,
        (mergeEclipseLists l1 l2).Sorted eclipseLE
        ∧ (mergeEclipseLists l1 l2).Pairwise
            (fun a b => eclipseKeyYM a ≠ eclipseKeyYM b)
        ∧ (∀ x, x ∈ mergeEclipseLists l1 l2 ↔
            (l1 ++ l2).find? (fun e => decide (eclipseKeyYM e = eclipseKeyYM x))
              = some x))
    ∧ mergeEclipseLists [solarSampleFirst] [solarSampleSecond]
        = [solarSampleFirst] := by
  constructor
  · intro l1 l2
    refine ⟨List.sorted_insertionSort eclipseLE _, ?_, ?_⟩
    · exact (List.perm_insertionSort eclipseLE _).symm.pairwise
        (jsDedupeBy_pairwise_keys eclipseKeyYM _) (fun h => Ne.symm h)
    · intro x
      rw [show mergeEclipseLists l1 l2
          = List.insertionSort eclipseLE (jsDedupeBy eclipseKeyYM (l1 ++ l2)) from rfl,
        List.mem_insertionSort]
      exact mem_jsDedupeBy eclipseKeyYM _ x
  · decide

/-! ## Claim C3 -/

/-- C3 counterexample: on the input line "2024-13-01" the NASA parser
emits a record whose month is 13, so the claimed month ∈ [1, 12]
invariant fails. -/
theorem C3_counterexample :
    ¬ (∀ r ∈ parseNASAEclipseData "2024-13-01" "solar", r.month ≤ 12) := by
  decide

/-- C3 (amended): every record produced by parseNASAEclipseData has
year in [1960, 2100] and month ≥ 1; the upper bound month ≤ 12 is not
guaranteed (the record guard checks only the year range and truthiness,
and the ISO and US date patterns accept two-digit month fields up to
99). -/
theorem C3_parser_invariant_amended (data eclipseType : String) :
    ∀ r ∈ parseNASAEclipseData data eclipseType,
      ((1960 : ℚ) ≤ r.year ∧ r.year ≤ 2100) ∧ 1 ≤ r.month := by
  intro r hr
  simp only [parseNASAEclipseData, List.mem_filterMap] at hr
  obtain ⟨line, _, hline⟩ := hr
  unfold parseNASALine at hline
  cases hs1 : scanFor matchP1At line with
  | some v =>
    obtain ⟨y, m, d⟩ := v
    rw [hs1] at hline
    exact mkNASARecord_bounds hline
  | none =>
    rw [hs1] at hline
    cases hs2 : scanFor matchP2At line with
    | some v =>
      obtain ⟨y, m, d⟩ := v
      rw [hs2] at hline
      exact mkNASARecord_bounds hline
    | none =>
      rw [hs2] at hline
      cases hs3 : scanFor matchP3At line with
      | some v =>
        obtain ⟨m, d, y⟩ := v
        rw [hs3] at hline
        exact mkNASARecord_bounds hline
      | none =>
        rw [hs3] at hline
        exact absurd hline (by simp)

/-- C3 witness: the month-name line "2024 Mar 25" parses to a concrete
record and the amended invariant holds for it. -/
theorem C3_witness :
    c3SampleRecord ∈ parseNASAEclipseData "2024 Mar 25" "solar"
    ∧ (((1960 : ℚ) ≤ c3SampleRecord.year ∧ c3SampleRecord.year ≤ 2100)
        ∧ 1 ≤ c3SampleRecord.month) :=
  ⟨by decide,
    C3_parser_invariant_amended "2024 Mar 25" "solar" c3SampleRecord (by decide)⟩

/-! ## Claim C4 -/

/-- C4 counterexample: for the list [e2025, e2024a, e2024b] (unsorted, and
with e2024a and e2024b sharing the (2024, 4) key), merging the list with
itself drops e2024b and reorders, so the result is not the original
list. -/
theorem C4_counterexample :
    mergeEclipseLists [solarSample2025, solarSampleFirst, solarSampleSecond]
        [solarSample2025, solarSampleFirst, solarSampleSecond]
      ≠ [solarSample2025, solarSampleFirst, solarSampleSecond] := by
  decide

/-- C4 (amended): self-merge is the identity exactly on the lists the
merge step itself produces, namely those whose (year, month) keys are
pairwise distinct and which are sorted non-decreasingly by year. -/
theorem C4_selfmerge_amended (l : List EclipseRecord)
    (hkeys : l.Pairwise (fun a b => eclipseKeyYM a ≠ eclipseKeyYM b))
    (hsorted : l.Sorted eclipseLE) :
    mergeEclipseLists l l = l := by
  show List.insertionSort eclipseLE (jsDedupeBy eclipseKeyYM (l ++ l)) = l
  rw [jsDedupeBy_append_self, jsDedupeBy_eq_self hkeys]
  exact hsorted.insertionSort_eq

/-- C4 witness: a two-element sorted list with distinct keys self-merges
to itself. -/
theorem C4_selfmerge_witness :
    mergeEclipseLists [solarSampleFirst, solarSample2025]
        [solarSampleFirst, solarSample2025]
      = [solarSampleFirst, solarSample2025] :=
  C4_selfmerge_amended [solarSampleFirst, solarSample2025] (by decide) (by decide)

/-! ## Claim C5 -/

/-- C5: for every startYear ≤ endYear and positive batch size, the batch
orchestrator of fetchAllAstronomicalData processes exactly
endYear - startYear + 1 distinct years: the concatenation of its batch
year lists has that length, contains no duplicates, and contains exactly
the years of [startYear, endYear]. -/
theorem C5_batch_orchestrator (startYear endYear : Int) (batchSize : Nat)
    (hse : startYear ≤ endYear) (hbs : 0 < batchSize) :
    ((batchYears startYear endYear batchSize).length : Int)
        = endYear - startYear + 1
    ∧ (batchYears startYear endYear batchSize).Nodup
    ∧ (∀ y : Int, y ∈ batchYears startYear endYear batchSize ↔
        startYear ≤ y ∧ y ≤ endYear) := by
  rw [batchYears_eq_intRange startYear endYear batchSize hbs]
  refine ⟨?_, nodup_intRange _ _, fun y => mem_intRange _ _ y⟩
  rw [length_intRange]
  omega

/-- C5 witness: instantiated at the configured range 1960-2100 with the
configured batch size 5. -/
theorem C5_batch_orchestrator_witness :
    (((batchYears 1960 2100 5).length : Int) = 2100 - 1960 + 1)
    ∧ (batchYears 1960 2100 5).Nodup
    ∧ (∀ y : Int, y ∈ batchYears 1960 2100 5 ↔ 1960 ≤ y ∧ y ≤ 2100) :=
  C5_batch_orchestrator 1960 2100 5 (by decide) (by decide)

/-! ## Claim C6 -/

/-- C6: the eclipse type classifier is total: for every description and
category in {solar, lunar} it returns a non-empty label (in both the
App/deploy-check version and the summary-script version), and when no
fixed-substring marker occurs in the description it falls back to the
generic "Solar Eclipse" / "Lunar Eclipse" label. -/
theorem C6_classifier_total (description category : String)
    (hcat : category = "solar" ∨ category = "lunar") :
    extractEclipseType description category ≠ ""
    ∧ extractEclipseTypeSummary description category ≠ ""
    ∧ (category = "solar" →
        jsIncludes description "   T   " = false →
        jsIncludes description "   A   " = false →
        jsIncludes description "   P   " = false →
        jsIncludes description "   H   " = false →
        extractEclipseType description category = "Solar Eclipse")
    ∧ (category = "lunar" →
        jsIncludes description "   T-  " = false →
        jsIncludes description "   T+  " = false →
        jsIncludes description "   P   " = false →
        jsIncludes description "   N   " = false →
        extractEclipseType description category = "Lunar Eclipse") := by
  rcases hcat with rfl | rfl
  · refine ⟨?_, ?_, ?_, ?_⟩
    · unfold extractEclipseType
      rw [if_pos rfl]
      split_ifs <;> decide
    · unfold extractEclipseTypeSummary
      rw [if_pos rfl]
      split_ifs <;> decide
    · intro _ h1 h2 h3 h4
      unfold extractEclipseType
      rw [if_pos rfl, if_neg (by simp [h1]), if_neg (by simp [h2]),
        if_neg (by simp [h3]), if_neg (by simp [h4])]
    · intro hcontra
      exact absurd hcontra (by decide)
  · refine ⟨?_, ?_, ?_, ?_⟩
    · unfold extractEclipseType
      rw [if_neg (by decide), if_pos rfl]
      split_ifs <;> decide
    · unfold extractEclipseTypeSummary
      rw [if_neg (by decide)]
      split_ifs <;> decide
    · intro hcontra
      exact absurd hcontra (by decide)
    · intro _ h1 h2 h3 h4
      unfold extractEclipseType
      rw [if_neg (by decide), if_pos rfl, if_neg (by simp [h1, h2]),
        if_neg (by simp [h3]), if_neg (by simp [h4])]

/-- C6 witness: the empty description in category solar (no marker
matches, the generic fallback label is returned). -/
theorem C6_classifier_total_witness :
    extractEclipseType "" "solar" ≠ ""
    ∧ extractEclipseTypeSummary "" "solar" ≠ ""
    ∧ ("solar" = "solar" →
        jsIncludes "" "   T   " = false →
        jsIncludes "" "   A   " = false →
        jsIncludes "" "   P   " = false →
        jsIncludes "" "   H   " = false →
        extractEclipseType "" "solar" = "Solar Eclipse")
    ∧ ("solar" = "lunar" →
        jsIncludes "" "   T-  " = false →
        jsIncludes "" "   T+  " = false →
        jsIncludes "" "   P   " = false →
        jsIncludes "" "   N   " = false →
        extractEclipseType "" "solar" = "Lunar Eclipse") :=
  C6_classifier_total "" "solar" (Or.inl rfl)

/-! ## Claim C9 -/

/-- C9: a per-year moon-phase fetch never propagates an error: whatever
the request/parse outcome, fetchMoonPhasesYear returns a total record;
on any failure outcome it has success false, empty phases and an error
message, and only on a parsed body with phasedata does it return success
true with exactly the parsed phases (and their count). -/
theorem C9_fetch_error_containment (year : Int) (o : YearFetchOutcome) :
    match o with
    | .parsedPhases ps =>
        (fetchMoonPhasesYear year o).success = true
        ∧ (fetchMoonPhasesYear year o).phases = ps
        ∧ (fetchMoonPhasesYear year o).count = some ps.length
        ∧ (fetchMoonPhasesYear year o).year = year
    | _ =>
        (fetchMoonPhasesYear year o).success = false
        ∧ (fetchMoonPhasesYear year o).phases = []
        ∧ (fetchMoonPhasesYear year o).error.isSome = true
        ∧ (fetchMoonPhasesYear year o).year = year := by
  cases o <;> simp [fetchMoonPhasesYear]

/-- C1 counterexample, in two parts.  First, a Feb 29 record of a
non-leap year: the birth date 2000-02-29 has (month, day) = (2, 29) and
the success:true year 2023 carries a Full Moon record with exactly that
(month, day), yet 2023 is not in the Full Moon result list, because
Date(2023, 1, 29) normalizes to March 1 and the matcher never sees
(2, 29).  Second, a record with a zero (falsy) year field and matching
(month, day) = (8, 11) for birth date 1999-08-11: parseJSONPhaseDate
returns null for it, so 2030 is not bucketed either. -/
theorem C1_moon_matcher_counterexample :
    2023 ∉ (processJSONAstronomicalData 2000 2 29
      [(2023, { success := true,
                phases := [{ year := 2023, month := 2, day := 29,
                             phase := "Full Moon", time := "" }] })]
      [] []).fullMoon
    ∧ 2030 ∉ (processJSONAstronomicalData 1999 8 11
      [(2030, { success := true,
                phases := [{ year := 0, month := 8, day := 11,
                             phase := "Full Moon", time := "" }] })]
      [] []).fullMoon := by
  constructor <;> decide

/-- C1 (amended): the matcher scans all years ≥ the birth year, and every
phase record of a success:true year whose (month, day) equals the birth
(month, day) is bucketed by its phase name, provided the record carries a
nonzero year and its (month, day) is a valid calendar date of that year
(otherwise JS Date normalization moves the date); moreover no year below
the birth year appears in any of the four result lists. -/
theorem C1_moon_matcher_amended (birthYear : Int) (birthMonth birthDay : Nat)
    (moonPhases : List (Nat × MoonYearRecord))
    (solarE lunarE : List EclipseRecord)
    (y : Nat) (rec : MoonYearRecord) (p : MoonPhaseRec)
    (hmem : (y, rec) ∈ moonPhases) (hsucc : rec.success = true)
    (hyear : birthYear ≤ (y : Int))
    (hp : p ∈ rec.phases) (hpy : p.year ≠ 0)
    (hpm1 : 1 ≤ p.month) (hpm2 : p.month ≤ 12) (hpd1 : 1 ≤ p.day)
    (hpd2 : p.day ≤ daysInMonth (jsYearAdjust (p.year : Int)) p.month)
    (hm : p.month = birthMonth) (hd : p.day = birthDay)
    (hphase : p.phase ∈ ["Full Moon", "New Moon", "First Quarter", "Last Quarter"]) :
    y ∈ phaseBucketOf (processJSONAstronomicalData birthYear birthMonth birthDay
          moonPhases solarE lunarE) p.phase
    ∧ (∀ z ∈ (processJSONAstronomicalData birthYear birthMonth birthDay
          moonPhases solarE lunarE).fullMoon, birthYear ≤ (z : Int))
    ∧ (∀ z ∈ (processJSONAstronomicalData birthYear birthMonth birthDay
          moonPhases solarE lunarE).newMoon, birthYear ≤ (z : Int))
    ∧ (∀ z ∈ (processJSONAstronomicalData birthYear birthMonth birthDay
          moonPhases solarE lunarE).firstQuarter, birthYear ≤ (z : Int))
    ∧ (∀ z ∈ (processJSONAstronomicalData birthYear birthMonth birthDay
          moonPhases solarE lunarE).lastQuarter, birthYear ≤ (z : Int)) := by
  have hmatch := phaseDateMatches_of_valid p birthMonth birthDay
    hpy hpm1 hpm2 hpd1 hpd2 hm hd
  refine ⟨?_, ?_, ?_, ?_, ?_⟩
  · simp only [List.mem_cons, List.not_mem_nil, or_false] at hphase
    rcases hphase with h | h | h | h
    · show y ∈ phaseBucketOf
        { fullMoon := List.insertionSort (fun a b : Nat => a ≤ b)
            (yearBucket ["Full Moon"] birthYear birthMonth birthDay moonPhases),
          newMoon := _, firstQuarter := _, lastQuarter := _, eclipses := _ } p.phase
      unfold phaseBucketOf
      rw [if_pos h]
      rw [List.mem_insertionSort]
      exact mem_yearBucket_intro _ _ _ _ _ y rec p hmem hsucc hyear hp hmatch
        (by rw [h]; exact List.mem_singleton.mpr rfl)
    · show y ∈ phaseBucketOf
        { fullMoon := _,
          newMoon := List.insertionSort (fun a b : Nat => a ≤ b)
            (yearBucket ["New Moon"] birthYear birthMonth birthDay moonPhases),
          firstQuarter := _, lastQuarter := _, eclipses := _ } p.phase
      unfold phaseBucketOf
      rw [if_neg (by rw [h]; decide), if_pos h]
      rw [List.mem_insertionSort]
      exact mem_yearBucket_intro _ _ _ _ _ y rec p hmem hsucc hyear hp hmatch
        (by rw [h]; exact List.mem_singleton.mpr rfl)
    · show y ∈ phaseBucketOf
        { fullMoon := _, newMoon := _,
          firstQuarter := List.insertionSort (fun a b : Nat => a ≤ b)
            (yearBucket ["First Quarter"] birthYear birthMonth birthDay moonPhases),
          lastQuarter := _, eclipses := _ } p.phase
      unfold phaseBucketOf
      rw [if_neg (by rw [h]; decide), if_neg (by rw [h]; decide), if_pos h]
      rw [List.mem_insertionSort]
      exact mem_yearBucket_intro _ _ _ _ _ y rec p hmem hsucc hyear hp hmatch
        (by rw [h]; exact List.mem_singleton.mpr rfl)
    · show y ∈ phaseBucketOf
        { fullMoon := _, newMoon := _, firstQuarter := _,
          lastQuarter := List.insertionSort (fun a b : Nat => a ≤ b)
            (yearBucket ["Last Quarter", "Third Quarter"]
              birthYear birthMonth birthDay moonPhases),
          eclipses := _ } p.phase
      unfold phaseBucketOf
      rw [if_neg (by rw [h]; decide), if_neg (by rw [h]; decide),
        if_neg (by rw [h]; decide)]
      rw [List.mem_insertionSort]
      exact mem_yearBucket_intro _ _ _ _ _ y rec p hmem hsucc hyear hp hmatch
        (by rw [h]; decide)
  · intro z hz
    have hz2 : z ∈ List.insertionSort (fun a b : Nat => a ≤ b)
        (yearBucket ["Full Moon"] birthYear birthMonth birthDay moonPhases) := hz
    rw [List.mem_insertionSort] at hz2
    exact yearBucket_lower_bound _ _ _ _ _ z hz2
  · intro z hz
    have hz2 : z ∈ List.insertionSort (fun a b : Nat => a ≤ b)
        (yearBucket ["New Moon"] birthYear birthMonth birthDay moonPhases) := hz
    rw [List.mem_insertionSort] at hz2
    exact yearBucket_lower_bound _ _ _ _ _ z hz2
  · intro z hz
    have hz2 : z ∈ List.insertionSort (fun a b : Nat => a ≤ b)
        (yearBucket ["First Quarter"] birthYear birthMonth birthDay moonPhases) := hz
    rw [List.mem_insertionSort] at hz2
    exact yearBucket_lower_bound _ _ _ _ _ z hz2
  · intro z hz
    have hz2 : z ∈ List.insertionSort (fun a b : Nat => a ≤ b)
        (yearBucket ["Last Quarter", "Third Quarter"]
          birthYear birthMonth birthDay moonPhases) := hz
    rw [List.mem_insertionSort] at hz2
    exact yearBucket_lower_bound _ _ _ _ _ z hz2

/-- C1 witness: the end-to-end scenario of the claim: birth date
1999-08-11, dataset with a Full Moon record {year 2030, month 8, day 11};
2030 lands in the Full Moon result list and every listed year is ≥
1999. -/
theorem C1_moon_matcher_witness :
    2030 ∈ phaseBucketOf (processJSONAstronomicalData 1999 8 11 c1Dataset [] [])
        c1Phase.phase
    ∧ (∀ z ∈ (processJSONAstronomicalData 1999 8 11 c1Dataset [] []).fullMoon,
        (1999 : Int) ≤ (z : Int))
    ∧ (∀ z ∈ (processJSONAstronomicalData 1999 8 11 c1Dataset [] []).newMoon,
        (1999 : Int) ≤ (z : Int))
    ∧ (∀ z ∈ (processJSONAstronomicalData 1999 8 11 c1Dataset [] []).firstQuarter,
        (1999 : Int) ≤ (z : Int))
    ∧ (∀ z ∈ (processJSONAstronomicalData 1999 8 11 c1Dataset [] []).lastQuarter,
        (1999 : Int) ≤ (z : Int)) :=
  C1_moon_matcher_amended 1999 8 11 c1Dataset [] [] 2030
    { success := true, phases := [c1Phase] } c1Phase
    (by decide) rfl (by decide) (by decide) (by decide) (by decide) (by decide)
    (by decide) (by decide) rfl rfl (by decide)

/-- C7 counterexample: processJSONAstronomicalData applies no dedupe to
the moon-phase year lists: a success year whose phase array carries the
same matching Full Moon record twice yields the year twice. -/
theorem C7_moonphase_dedupe_counterexample :
    (processJSONAstronomicalData 1999 8 11
        [(2030, { success := true, phases := [c7Phase, c7Phase] })] [] []).fullMoon
      = [2030, 2030]
    ∧ ¬ ((processJSONAstronomicalData 1999 8 11
        [(2030, { success := true, phases := [c7Phase, c7Phase] })] [] []).fullMoon).Nodup := by
  constructor <;> decide

theorem processMoonPhasesAux_nodup (birth : Int × Nat × Nat) :
    ∀ (phases : List USNOPhase) (fm nm : List Int),
      fm.Nodup → nm.Nodup →
      (processMoonPhasesAux birth phases fm nm).1.Nodup
      ∧ (processMoonPhasesAux birth phases fm nm).2.Nodup := by
  intro phases
  induction phases with
  | nil =>
    intro fm nm h1 h2
    exact ⟨h1, h2⟩
  | cons ph rest ih =>
    intro fm nm h1 h2
    cases hpd : parseUSNODate ph.date with
    | none =>
      simp only [processMoonPhasesAux, hpd]
      exact ih fm nm h1 h2
    | some pd =>
      simp only [processMoonPhasesAux, hpd]
      by_cases hsame : sameDayMonth pd birth = true
      · rw [if_pos hsame]
        by_cases hfull : (decide (ph.phase = "Full Moon") && !(fm.contains pd.1)) = true
        · rw [if_pos hfull]
          refine ih _ _ ?_ h2
          simp only [Bool.and_eq_true, decide_eq_true_eq] at hfull
          have hnotmem : pd.1 ∉ fm := by
            intro hmm
            have hcont := hfull.2
            simp [List.contains, List.elem_eq_mem, hmm] at hcont
          simp [List.nodup_append, h1, hnotmem]
        · rw [if_neg hfull]
          by_cases hnew : (decide (ph.phase = "New Moon") && !(nm.contains pd.1)) = true
          · rw [if_pos hnew]
            refine ih _ _ h1 ?_
            simp only [Bool.and_eq_true, decide_eq_true_eq] at hnew
            have hnotmem : pd.1 ∉ nm := by
              intro hmm
              have hcont := hnew.2
              simp [List.contains, List.elem_eq_mem, hmm] at hcont
            simp [List.nodup_append, h2, hnotmem]
          · rw [if_neg hnew]
            exact ih fm nm h1 h2
      · rw [if_neg hsame]
        exact ih fm nm h1 h2

/-- C7 (amended): the final moon-phase year lists of processMoonPhases
contain each year at most once (the push is guarded by an includes
check); processJSONAstronomicalData performs no such dedupe, see the
counterexample. -/
theorem C7_moonphase_nodup_amended (phases : List USNOPhase)
    (birth : Int × Nat × Nat) :
    (processMoonPhases phases birth).fullMoon.Nodup
    ∧ (processMoonPhases phases birth).newMoon.Nodup := by
  have h := processMoonPhasesAux_nodup birth phases [] []
    (List.nodup_nil) (List.nodup_nil)
  constructor
  · exact ((List.perm_insertionSort (fun a b : Int => a ≤ b) _).nodup_iff).mpr h.1
  · exact ((List.perm_insertionSort (fun a b : Int => a ≤ b) _).nodup_iff).mpr h.2

/-- C8 counterexample: processEclipseData, the eclipse half of the
JSON-data birthday matcher, performs no (year, type) dedupe: a solar
list carrying the same matching record twice yields two result entries
with the same (year, type). -/
theorem C8_eclipse_dedupe_counterexample :
    ¬ ((processEclipseData 1999 4 8 [c8SolarRecord, c8SolarRecord] []).Pairwise
        (fun a b => ¬(a.year = b.year ∧ a.type = b.type))) := by
  decide

/-- C8 (amended): the (year, type) dedupe holds for processEclipses, the
live-data matcher (which filters by findIndex on (year, type)); the
JSON-data matcher processEclipseData does not dedupe, see the
counterexample. -/
theorem C8_eclipse_dedupe_amended (solarEclipses lunarEclipses : List RawEclipse)
    (birth : Int × Nat × Nat) :
    (processEclipses solarEclipses lunarEclipses birth).Pairwise
      (fun a b => eventKeyYT a ≠ eventKeyYT b) := by
  exact (List.perm_insertionSort eventLE _).symm.pairwise
    (jsDedupeBy_pairwise_keys eventKeyYT _) (fun h => Ne.symm h)

/-! ## Claim C10 -/

theorem jsRound_bounds {s e : Int} {q : ℚ} (h1 : (s : ℚ) ≤ q) (h2 : q ≤ (e : ℚ)) :
    (s : ℚ) ≤ ((jsRound q : Int) : ℚ) ∧ ((jsRound q : Int) : ℚ) ≤ (e : ℚ) := by
  unfold jsRound
  constructor
  · have h : s ≤ ⌊q + 1 / 2⌋ := Int.le_floor.mpr (by linarith)
    exact_mod_cast h
  · have h : ⌊q + 1 / 2⌋ ≤ e := by
      rw [Int.floor_le_iff]
      linarith
    exact_mod_cast h

theorem sarosBackF_bounds (s e : ℚ) (m d : Nat) (t : String) :
    ∀ (fuel : Nat) (yr : ℚ), ∀ r ∈ sarosBackF s e m d t fuel yr,
      s ≤ r.year ∧ r.year ≤ e := by
  intro fuel
  induction fuel with
  | zero =>
    intro yr r hr
    exact absurd hr (List.not_mem_nil r)
  | succ fuel ih =>
    intro yr r hr
    simp only [sarosBackF] at hr
    by_cases hg : s ≤ yr
    · rw [if_pos hg] at hr
      rcases List.mem_append.mp hr with hr1 | hr2
      · by_cases hin : s ≤ yr ∧ yr ≤ e
        · rw [if_pos hin] at hr1
          have hre := List.mem_singleton.mp hr1
          subst hre
          exact ⟨hin.1, hin.2⟩
        · rw [if_neg hin] at hr1
          exact absurd hr1 (List.not_mem_nil r)
      · exact ih _ r hr2
    · rw [if_neg hg] at hr
      exact absurd hr (List.not_mem_nil r)

theorem sarosFwdF_bounds (s e : Int) (m d : Nat) (t : String) :
    ∀ (fuel : Nat) (yr : ℚ), ∀ r ∈ sarosFwdF (s : ℚ) (e : ℚ) m d t fuel yr,
      (s : ℚ) ≤ r.year ∧ r.year ≤ (e : ℚ) := by
  intro fuel
  induction fuel with
  | zero =>
    intro yr r hr
    exact absurd hr (List.not_mem_nil r)
  | succ fuel ih =>
    intro yr r hr
    simp only [sarosFwdF] at hr
    by_cases hg : yr ≤ (e : ℚ)
    · rw [if_pos hg] at hr
      rcases List.mem_append.mp hr with hr1 | hr2
      · by_cases hin : (s : ℚ) ≤ yr ∧ yr ≤ (e : ℚ)
        · rw [if_pos hin] at hr1
          have hre := List.mem_singleton.mp hr1
          subst hre
          exact jsRound_bounds hin.1 hin.2
        · rw [if_neg hin] at hr1
          exact absurd hr1 (List.not_mem_nil r)
      · exact ih _ r hr2
    · rw [if_neg hg] at hr
      exact absurd hr (List.not_mem_nil r)

theorem calcEclipsesRaw_bounds (startYear endYear : Int) (eclipseType : String) :
    ∀ r ∈ calcEclipsesRaw startYear endYear eclipseType,
      (startYear : ℚ) ≤ r.year ∧ r.year ≤ (endYear : ℚ) := by
  intro r hr
  simp only [calcEclipsesRaw, List.mem_flatMap] at hr
  obtain ⟨ref, _, hr⟩ := hr
  rcases List.mem_append.mp hr with hr1 | hr2
  · exact sarosBackF_bounds _ _ _ _ _ _ _ r hr1
  · exact sarosFwdF_bounds _ _ _ _ _ _ _ r hr2

/-- C10: for every startYear ≤ endYear and category in {solar, lunar},
every record of the Saros fallback generator calculateEclipses has
startYear ≤ year ≤ endYear, no two records share a (year, month, day)
triple, and the list is sorted ascending by year. -/
theorem C10_saros_generator (startYear endYear : Int) (eclipseType : String)
    (_hse : startYear ≤ endYear)
    (_hcat : eclipseType = "solar" ∨ eclipseType = "lunar") :
    (∀ r ∈ calculateEclipses startYear endYear eclipseType,
        (startYear : ℚ) ≤ r.year ∧ r.year ≤ (endYear : ℚ))
    ∧ (calculateEclipses startYear endYear eclipseType).Pairwise
        (fun a b => eclipseKeyYMD a ≠ eclipseKeyYMD b)
    ∧ (calculateEclipses startYear endYear eclipseType).Sorted eclipseLE := by
  refine ⟨?_, ?_, ?_⟩
  · intro r hr
    have hr2 : r ∈ List.insertionSort eclipseLE
        (jsDedupeBy eclipseKeyYMD (calcEclipsesRaw startYear endYear eclipseType)) := hr
    rw [List.mem_insertionSort] at hr2
    exact calcEclipsesRaw_bounds startYear endYear eclipseType r
      (mem_of_mem_jsDedupeBy hr2)
  · exact (List.perm_insertionSort eclipseLE _).symm.pairwise
      (jsDedupeBy_pairwise_keys eclipseKeyYMD _) (fun h => Ne.symm h)
  · exact List.sorted_insertionSort eclipseLE _

/-- C10 witness: instantiated at the one-year range 2024-2024 for the
solar category. -/
theorem C10_saros_generator_witness :
    (∀ r ∈ calculateEclipses 2024 2024 "solar",
        ((2024 : Int) : ℚ) ≤ r.year ∧ r.year ≤ ((2024 : Int) : ℚ))
    ∧ (calculateEclipses 2024 2024 "solar").Pairwise
        (fun a b => eclipseKeyYMD a ≠ eclipseKeyYMD b)
    ∧ (calculateEclipses 2024 2024 "solar").Sorted eclipseLE :=
  C10_saros_generator 2024 2024 "solar" (by decide) (Or.inl rfl)
